import Mathlib

/-!
# Verification of the customer-behaviour-analysis filtering and scoring pipeline

Shallow embedding of the repository's filter engine, RFM scoring engine and
propensity/engagement scoring, translated from:

* `predicted_results.py` — the prediction-page filter chain, the
  customer-id/name auto-sync of the filter widgets, and persona classification;
* `customer_prediction_insights.py` — the inline product filters and the
  derived-score preprocessing (`propensity_category`, `spending_category`,
  `engagement_score`);
* `source_data.py` — the quartile-based RFM scoring and segment assignment.

Floating point columns are modelled as exact rationals (`ℚ`); a pandas `NaN`
entry of a column is modelled as `Option.none`; a raised pandas/NumPy error
(e.g. `ValueError` from `pd.qcut` on duplicate bin edges) is modelled by the
whole computation returning `Option.none`.
-/

/- The Batteries rational primitives are `@[irreducible]`; re-marking them
`semireducible` lets concrete witness populations evaluate by `decide`. -/
set_option allowUnsafeReducibility true

attribute [semireducible] Rat.add Rat.mul Rat.sub Rat.inv

namespace Cba

variable {α : Type} {β : Type}

/-! ## Generic list and string helpers -/

/-- Insert `x` into `l`, placing it before the first element `y` with
`le x y`; keeps `x` in front of later equal elements, so the resulting
sort is stable. -/
def insertLe (le : α → α → Bool) (x : α) : List α → List α
  | [] => [x]
  | y :: t => if le x y then x :: y :: t else y :: insertLe le x t

/-- Stable insertion sort; models the ordering pandas gives a numeric column
(`sort_values` / the sorted order used by quantile computation). -/
def sortBy (le : α → α → Bool) : List α → List α
  | [] => []
  | x :: t => insertLe le x (sortBy le t)

/-- `hasSubstr needle hay = true` iff `needle` occurs contiguously in `hay`
(Python's `needle in hay` on strings, viewed as character lists). -/
def hasSubstr (needle : List Char) : List Char → Bool
  | [] => needle.isEmpty
  | c :: t => needle.isPrefixOf (c :: t) || hasSubstr needle t

/-- Characters of a string, lower-cased. -/
def lowerChars (s : String) : List Char := s.toList.map Char.toLower

/-- `containsCI hay needle`: case-insensitive substring test. Models
`pandas.Series.str.contains(needle, case=False)` for a literal pattern
(the selected product names) and Python's
`needle.lower() in hay.lower()`. -/
def containsCI (hay needle : String) : Bool :=
  hasSubstr (lowerChars needle) (lowerChars hay)

/-- Apply a fallible per-row computation to every row; the first failure
(modelling a raised error) makes the whole computation fail. -/
def mapOpt (f : α → Option β) : List α → Option (List β)
  | [] => some []
  | x :: t => do
      let y ← f x
      let ys ← mapOpt f t
      pure (y :: ys)

/-- A row filter that is applied only when its criterion is active
(`if criterion-is-active: df = df[pred]` in the source). -/
def condFilter (active : Prop) [Decidable active] (p : α → Bool) (l : List α) : List α :=
  if active then l.filter p else l

/-! ## Prediction-page filter engine (`predicted_results.py`)

`show_predictions_page` builds a merged dataframe and, once "Apply Filters"
is pressed, runs the chain of subset filters at lines 323–358. Only the
columns that chain touches are modelled. `Similarity_Score` and
`purchased_products_names` can be missing after the left merges, hence
`Option`. -/

/-- One row of the merged prediction dataframe (`df` in
`show_predictions_page`), restricted to the columns the filter chain and the
auto-sync logic read. -/
structure PRow where
  customer_id : String
  name : String
  gender : String
  state : String
  city_name : String
  purchased_products_names : Option String
  Similarity_Score : Option ℚ
  total_spent : ℚ
deriving DecidableEq, Repr

/-- The `st.session_state.temp_filters` criteria read by the filter chain.
The widget layer initialises every scalar key, so a scalar criterion is
modelled as a `String` whose value `"All"` means "no restriction"; the
product multi-select is a list (empty = inactive); the two range sliders
are `none` when their key was never set and `some (lo, hi)` otherwise. -/
structure PCriteria where
  customer_id : String
  name : String
  gender : String
  region : String
  city : String
  products : List String
  similarity : Option (ℚ × ℚ)
  spent : Option (ℚ × ℚ)
deriving DecidableEq, Repr

/-- The product mask of lines 341–345: starting from an all-`False` mask,
OR in `str.contains(product, case=False, na=False)` for every selected
product. A missing (`NaN`) product list fails every test (`na=False`). -/
def productMask (sel : List String) (v : Option String) : Bool :=
  sel.foldl
    (fun acc product =>
      acc || (match v with
              | none => false
              | some s => containsCI s product))
    false

/-- Lines 340–346: the product filter fires only when the selection is
non-empty (an empty list is falsy in Python). -/
def productFilter (sel : List String) (l : List PRow) : List PRow :=
  if sel = [] then l else l.filter (fun r => productMask sel r.purchased_products_names)

/-- The row test of lines 350–351: `Similarity_Score * 100` must lie in the
inclusive range; a `NaN` score fails both comparisons. -/
def simPass (lo hi : ℚ) (s : Option ℚ) : Bool :=
  match s with
  | none => false
  | some s => decide (lo ≤ s * 100 ∧ s * 100 ≤ hi)

/-- Lines 348–352: the similarity filter fires when the slider key exists. -/
def similarityFilter : Option (ℚ × ℚ) → List PRow → List PRow
  | none, l => l
  | some (lo, hi), l => l.filter (fun r => simPass lo hi r.Similarity_Score)

/-- Lines 354–358: inclusive range filter on `total_spent`. -/
def spentFilter : Option (ℚ × ℚ) → List PRow → List PRow
  | none, l => l
  | some (lo, hi), l =>
      l.filter (fun r => decide (lo ≤ r.total_spent ∧ r.total_spent ≤ hi))

/-- The complete filter chain of `show_predictions_page`, lines 323–358,
applied in source order. -/
def applyPredictionFilters (rows : List PRow) (c : PCriteria) : List PRow :=
  rows
  |> condFilter (c.customer_id ≠ "All") (fun r => decide (r.customer_id = c.customer_id))
  |> condFilter (c.name ≠ "All") (fun r => decide (r.name = c.name))
  |> condFilter (c.gender ≠ "All") (fun r => decide (r.gender = c.gender))
  |> condFilter (c.region ≠ "All") (fun r => decide (r.state = c.region))
  |> condFilter (c.city ≠ "All") (fun r => decide (r.city_name = c.city))
  |> productFilter c.products
  |> similarityFilter c.similarity
  |> spentFilter c.spent

/-! ## Cross-field auto-sync (`predicted_results.py` lines 127–145 / 169–187)

The two driver widgets write through `st.session_state.temp_filters`. Each
update is modelled as a transition on the five synchronised fields. Looking
up a missing customer (`df[df[...] == sel].iloc[0]` on an empty frame)
raises `IndexError`; that failure is modelled as `none`. -/

/-- The five synchronised keys of `st.session_state.temp_filters`. -/
structure TempFilters where
  customer_id : String
  name : String
  gender : String
  region : String
  city : String
deriving DecidableEq, Repr

/-- Lines 127–145: the Customer-ID selectbox changed. If the new value is a
real id, the first matching row's `name`/`gender`/`state`/`city_name`
overwrite the other four fields; if it is `"All"`, they all reset to
`"All"`; if the value did not change, the state is untouched. -/
def selectCustomerId (df : List PRow) (s : TempFilters) (sel : String) :
    Option TempFilters :=
  if sel = s.customer_id then some s
  else if sel ≠ "All" then
    match df.find? (fun r => decide (r.customer_id = sel)) with
    | some r =>
        some { customer_id := sel, name := r.name, gender := r.gender,
               region := r.state, city := r.city_name }
    | none => none
  else
    some { customer_id := "All", name := "All", gender := "All",
           region := "All", city := "All" }

/-- Lines 169–187: the Customer-Name selectbox changed; symmetric to
`selectCustomerId`, driving from the `name` column. -/
def selectCustomerName (df : List PRow) (s : TempFilters) (sel : String) :
    Option TempFilters :=
  if sel = s.name then some s
  else if sel ≠ "All" then
    match df.find? (fun r => decide (r.name = sel)) with
    | some r =>
        some { customer_id := r.customer_id, name := sel, gender := r.gender,
               region := r.state, city := r.city_name }
    | none => none
  else
    some { customer_id := "All", name := "All", gender := "All",
           region := "All", city := "All" }

/-! ## Inline product filters (`customer_prediction_insights.py` lines 225–268)

`display_inline_filters` filters the merged prediction dataframe and then
sorts by `propensity_score` (descending) and keeps the top N. The `Recency`
and `Frequency` columns are present after `merge_customer_data`, so the
column-existence guards are taken as true. -/

/-- One row of the merged insights dataframe, restricted to the columns the
inline filter chain reads. `spending_category` is the `pd.qcut`-derived
column, which can be `NaN`. -/
structure IRow where
  customer_id : String
  category : String
  product : String
  propensity_score : ℚ
  region : String
  price_inr : ℚ
  gender : String
  spending_category : Option String
  Recency : ℚ
  Frequency : ℚ
deriving DecidableEq, Repr

/-- The widget values consumed by `display_inline_filters`; `"All"` means no
restriction for the selectboxes, the two sliders always carry a range and
the number inputs always carry a value. -/
structure ICriteria where
  category : String
  product : String
  propensity : ℚ × ℚ
  region : String
  price : ℚ × ℚ
  gender : String
  spending : String
  recency_max : ℚ
  frequency_min : ℚ
  top_n : Nat
deriving DecidableEq, Repr

/-- Lines 225–265: the inline filter chain, in source order. The propensity
and price range filters are unconditional; the spending filter compares the
(possibly `NaN`) derived category with the selected label. -/
def inlineFilter (rows : List IRow) (c : ICriteria) : List IRow :=
  rows
  |> condFilter (c.category ≠ "All") (fun r => decide (r.category = c.category))
  |> condFilter (c.product ≠ "All") (fun r => decide (r.product = c.product))
  |> (fun l => l.filter (fun r =>
        decide (c.propensity.1 ≤ r.propensity_score ∧ r.propensity_score ≤ c.propensity.2)))
  |> condFilter (c.region ≠ "All") (fun r => decide (r.region = c.region))
  |> (fun l => l.filter (fun r =>
        decide (c.price.1 ≤ r.price_inr ∧ r.price_inr ≤ c.price.2)))
  |> condFilter (c.gender ≠ "All") (fun r => decide (r.gender = c.gender))
  |> condFilter (c.spending ≠ "All") (fun r => decide (r.spending_category = some c.spending))
  |> (fun l => l.filter (fun r => decide (r.Recency ≤ c.recency_max)))
  |> (fun l => l.filter (fun r => decide (c.frequency_min ≤ r.Frequency)))

/-- Line 268: `sort_values('propensity_score', ascending=False).head(top_n)`. -/
def display_inline_filters (rows : List IRow) (c : ICriteria) : List IRow :=
  (sortBy (fun a b => decide (b.propensity_score ≤ a.propensity_score))
      (inlineFilter rows c)).take c.top_n

/-! ## Quantile binning (`pd.qcut` / `pd.cut`)

`pd.qcut(x, q, labels)` computes the `q+1` linearly-interpolated quantiles of
`x` as bin edges, refuses duplicate edges unless `duplicates='drop'`, and
bins every value into right-closed intervals, the first interval also
containing its left edge (`include_lowest`). `pd.cut(x, bins, labels)` bins
against fixed edges with the first interval left-open. -/

/-- Linear interpolation at fractional position `pos` whose integer part is
`i`: element `i` plus the fractional remainder times the gap to element
`i + 1` (the last element interpolates with itself). -/
def interpAt (sorted : List ℚ) (pos : ℚ) (i : Nat) : ℚ :=
  sorted.getD i 0
  + (pos - (i : ℚ)) * (sorted.getD (i + 1) (sorted.getD i 0) - sorted.getD i 0)

/-- The NumPy linear-interpolation quantile of an (ascending) sorted list:
interpolate at position `p * (n - 1)`. -/
def quantile (sorted : List ℚ) (p : ℚ) : ℚ :=
  interpAt sorted (p * ((sorted.length : ℚ) - 1))
    (Rat.floor (p * ((sorted.length : ℚ) - 1))).toNat

/-- The quantiles of `xs` at each probability in `ps`. -/
def quantilesOf (xs : List ℚ) (ps : List ℚ) : List ℚ :=
  ps.map (quantile (sortBy (fun a b => decide (a ≤ b)) xs))

/-- The five quartile bin edges `pd.qcut(xs, 4)` starts from. -/
def qcutEdges4 (xs : List ℚ) : List ℚ := quantilesOf xs [0, 1/4, 1/2, 3/4, 1]

/-- The four tertile bin edges `pd.qcut(xs, 3)` starts from. -/
def qcutEdges3 (xs : List ℚ) : List ℚ := quantilesOf xs [0, 1/3, 2/3, 1]

/-- `np.unique(bins)` keeps as many entries as `bins` iff no two entries are
equal; `pd.qcut` without `duplicates='drop'` raises `ValueError` otherwise. -/
def allDistinct : List ℚ → Bool
  | [] => true
  | x :: t => t.all (fun y => decide (x ≠ y)) && allDistinct t

/-- Index of the bin of `v` for ascending `edges`: the first interval
`(edges[k], edges[k+1]]` containing `v`, the first interval also admitting
`v = edges[0]` when `il` (include-lowest) is set; `none` when `v` lies in no
interval (pandas emits `NaN`). -/
def binIndexAux (il : Bool) (v : ℚ) : List ℚ → Nat → Option Nat
  | a :: b :: t, k =>
      if ((if il && k == 0 then decide (a ≤ v) else decide (a < v)) && decide (v ≤ b)) then
        some k
      else binIndexAux il v (b :: t) (k + 1)
  | _, _ => none

/-- Bin `v` against `edges` and return the matching label, `none` for a value
outside every bin. -/
def cutLabels (il : Bool) (edges : List ℚ) (labels : List α) (v : ℚ) : Option α :=
  (binIndexAux il v edges 0).bind (fun i => labels[i]?)

/-- `Series.rank(method='first')`: ascending rank, ties broken by original
position — the rank of element `i` is one more than the number of strictly
smaller elements plus the number of equal elements occurring before `i`. -/
def rankFirst (xs : List ℚ) : List ℚ :=
  (List.range xs.length).map (fun i =>
    ((1 + xs.countP (fun y => decide (y < xs.getD i 0))
        + (xs.take i).countP (fun y => decide (y = xs.getD i 0)) : Nat) : ℚ))

/-! ## RFM scoring engine (`source_data.py` lines 259–289) -/

/-- One row of the RFM dataset. -/
structure RFMRow where
  Recency : ℚ
  Frequency : ℚ
  Monetary : ℚ
deriving DecidableEq, Repr

/-- A scored row as produced by `show_rfm_analysis`. -/
structure ScoredRFM where
  Recency : ℚ
  Frequency : ℚ
  Monetary : ℚ
  R_Score : ℤ
  F_Score : ℤ
  M_Score : ℤ
  RFM_Score : ℤ
  Segment : String
deriving DecidableEq, Repr

/-- Lines 277–287: the fixed threshold table, first match wins. -/
def segment_customer (score : ℤ) : String :=
  if score ≥ 10 then "Champions"
  else if score ≥ 8 then "Loyal Customers"
  else if score ≥ 6 then "Potential Loyalists"
  else if score ≥ 5 then "At Risk"
  else "Lost"

/-- Score one row (paired with its precomputed frequency rank) against the
three edge lists: `R_Score` from labels `[4,3,2,1]` on `Recency`, `F_Score`
from labels `[1,2,3,4]` on the frequency rank, `M_Score` from labels
`[1,2,3,4]` on `Monetary`; `RFM_Score` is their sum and `Segment` its
threshold bucket. -/
def scoreRow (eR eF eM : List ℚ) (x : RFMRow × ℚ) : Option ScoredRFM := do
  let r ← cutLabels true eR ([4, 3, 2, 1] : List ℤ) x.1.Recency
  let f ← cutLabels true eF ([1, 2, 3, 4] : List ℤ) x.2
  let m ← cutLabels true eM ([1, 2, 3, 4] : List ℤ) x.1.Monetary
  pure { Recency := x.1.Recency, Frequency := x.1.Frequency, Monetary := x.1.Monetary,
         R_Score := r, F_Score := f, M_Score := m,
         RFM_Score := r + f + m, Segment := segment_customer (r + f + m) }

/-- `show_rfm_analysis` lines 266–289: `R_Score = qcut(Recency, 4, [4,3,2,1])`,
`F_Score = qcut(Frequency.rank(method='first'), 4, [1,2,3,4])`,
`M_Score = qcut(Monetary, 4, [1,2,3,4])`, their sum, and the segment.
None of the three `pd.qcut` calls passes `duplicates='drop'`, so duplicate
bin edges in any dimension raise `ValueError` — modelled as `none`. -/
def scoreRFM (pop : List RFMRow) : Option (List ScoredRFM) :=
  if allDistinct (qcutEdges4 (pop.map (·.Recency)))
     && allDistinct (qcutEdges4 (rankFirst (pop.map (·.Frequency))))
     && allDistinct (qcutEdges4 (pop.map (·.Monetary))) then
    mapOpt
      (scoreRow (qcutEdges4 (pop.map (·.Recency)))
        (qcutEdges4 (rankFirst (pop.map (·.Frequency))))
        (qcutEdges4 (pop.map (·.Monetary))))
      (pop.zip (rankFirst (pop.map (·.Frequency))))
  else none

/-! ## Derived prediction scores (`customer_prediction_insights.py` lines 53–84) -/

/-- One row of the raw prediction dataframe, restricted to the numeric
columns `preprocess_prediction_data` reads. -/
structure PredRow where
  propensity_score : ℚ
  embedding_similarity : ℚ
  total_transactions : ℚ
  total_spent : ℚ
deriving DecidableEq, Repr

/-- Lines 63–67: `pd.cut(propensity_score, bins=[0, 0.3, 0.6, 1.0],
labels=['Low','Medium','High'])` with pandas defaults, i.e. right-closed
intervals and no `include_lowest`. -/
def propensity_category (p : ℚ) : Option String :=
  cutLabels false [0, 3/10, 6/10, 1] ["Low", "Medium", "High"] p

/-- `np.unique` on an ascending edge list: collapse adjacent duplicates. -/
def collapseDups : List ℚ → List ℚ
  | [] => []
  | [x] => [x]
  | x :: y :: t => if x = y then collapseDups (y :: t) else x :: collapseDups (y :: t)

/-- Lines 70–75: `pd.qcut(total_spent, q=3, labels=[...], duplicates='drop')`.
Duplicate tertile edges are dropped, but `pd.qcut` then demands exactly one
label fewer than the remaining edges, so a collapsed edge list still raises
`ValueError` (modelled as `none`); otherwise each row gets its tertile label. -/
def spending_categories (spent : List ℚ) : Option (List (Option String)) :=
  if (collapseDups (qcutEdges3 spent)).length = 4 then
    some (spent.map
      (cutLabels true (collapseDups (qcutEdges3 spent))
        ["Low Spender", "Medium Spender", "High Spender"]))
  else none

/-- `Series.max()` (`none` on an empty series). -/
def seriesMax : List ℚ → Option ℚ
  | [] => none
  | x :: t => some (t.foldl max x)

/-- Lines 78–83: `engagement_score = propensity_score*0.4 +
embedding_similarity*0.3 + (total_transactions / total_transactions.max())*0.3`.
The division is unguarded: when the population maximum is `0`, the third
term is `0/0`, i.e. float `NaN`, which propagates through the sum — modelled
as `none` (no finite value). -/
def engagement_score (pop : List PredRow) (r : PredRow) : Option ℚ :=
  match seriesMax (pop.map (·.total_transactions)) with
  | none => none
  | some m =>
      if m = 0 then none
      else some (r.propensity_score * (4/10) + r.embedding_similarity * (3/10)
                 + r.total_transactions / m * (3/10))

/-! ## Persona classification (`predicted_results.py` lines 623–660) -/

/-- The 7-label persona vocabulary, in the order `generate_persona` scans it. -/
def personaLabels : List String :=
  ["Champions", "Loyal Customers", "Potential Loyalists", "Big Spenders",
   "New Customers", "At Risk", "Hibernating"]

/-- Lines 649–660: return the first vocabulary label occurring
case-insensitively in the responder's text, else `"Unclassified"`. -/
def classifyPersona (response : String) : String :=
  match personaLabels.find? (fun p => containsCI response p) with
  | some p => p
  | none => "Unclassified"

/-- `generate_persona`: the outcome of `subprocess.run(["ollama", ...])` is
passed in as an `Except` — `Except.ok` carries the captured standard output,
`Except.error` a raised transport failure (e.g. `FileNotFoundError`). The
source wraps the call in no `try`/`except`, so a raised failure propagates
unchanged; a successful call's text is classified by substring search. -/
def generate_persona (call : Except Unit String) : Except Unit String :=
  match call with
  | .error e => .error e
  | .ok response => .ok (classifyPersona response)

/-! ## Helper lemmas -/

theorem mem_insertLe {le : α → α → Bool} {x a : α} {l : List α} :
    a ∈ insertLe le x l ↔ a = x ∨ a ∈ l := by
  induction l with
  | nil => simp [insertLe]
  | cons y t ih =>
      simp only [insertLe]
      split
      · simp [List.mem_cons]
      · simp only [List.mem_cons, ih]
        tauto

theorem mem_sortBy {le : α → α → Bool} {l : List α} {a : α} :
    a ∈ sortBy le l ↔ a ∈ l := by
  induction l with
  | nil => simp [sortBy]
  | cons y t ih => simp only [sortBy, mem_insertLe, ih, List.mem_cons]

theorem length_insertLe {le : α → α → Bool} {x : α} {l : List α} :
    (insertLe le x l).length = l.length + 1 := by
  induction l with
  | nil => simp [insertLe]
  | cons y t ih =>
      simp only [insertLe]
      split <;> simp [ih]

theorem length_sortBy {le : α → α → Bool} {l : List α} :
    (sortBy le l).length = l.length := by
  induction l with
  | nil => simp [sortBy]
  | cons y t ih => simp [sortBy, length_insertLe, ih]

theorem pairwise_insertLe {le : α → α → Bool}
    (htrans : ∀ a b c, le a b = true → le b c = true → le a c = true)
    (htot : ∀ a b, le a b = true ∨ le b a = true)
    {x : α} {l : List α} (h : l.Pairwise (fun a b => le a b = true)) :
    (insertLe le x l).Pairwise (fun a b => le a b = true) := by
  induction l with
  | nil => simp [insertLe]
  | cons y t ih =>
      rw [List.pairwise_cons] at h
      simp only [insertLe]
      split
      · rename_i hxy
        refine List.pairwise_cons.2 ⟨?_, List.pairwise_cons.2 h⟩
        intro z hz
        rcases List.mem_cons.1 hz with rfl | hz
        · exact hxy
        · exact htrans x y z hxy (h.1 z hz)
      · rename_i hxy
        have hyx : le y x = true := by
          rcases htot x y with hc | hc
          · exact absurd hc hxy
          · exact hc
        refine List.pairwise_cons.2 ⟨?_, ih h.2⟩
        intro z hz
        rcases mem_insertLe.1 hz with rfl | hz
        · exact hyx
        · exact h.1 z hz

theorem pairwise_sortBy {le : α → α → Bool}
    (htrans : ∀ a b c, le a b = true → le b c = true → le a c = true)
    (htot : ∀ a b, le a b = true ∨ le b a = true) (l : List α) :
    (sortBy le l).Pairwise (fun a b => le a b = true) := by
  induction l with
  | nil => simp [sortBy]
  | cons y t ih => exact pairwise_insertLe htrans htot ih

theorem sortBy_eq_of_pairwise {le : α → α → Bool} {l : List α}
    (h : l.Pairwise (fun a b => le a b = true)) : sortBy le l = l := by
  induction l with
  | nil => rfl
  | cons y t ih =>
      rw [List.pairwise_cons] at h
      rw [sortBy, ih h.2]
      cases t with
      | nil => rfl
      | cons z t' =>
          simp only [insertLe]
          rw [if_pos (h.1 z (List.mem_cons_self z t'))]

theorem condFilter_mem {c : Prop} [Decidable c] {p : α → Bool} {l : List α} {a : α}
    (h : a ∈ condFilter c p l) : a ∈ l := by
  unfold condFilter at h
  split at h
  · exact List.mem_of_mem_filter h
  · exact h

theorem condFilter_pass {c : Prop} [Decidable c] {p : α → Bool} {l : List α} {a : α}
    (h : a ∈ condFilter c p l) (hc : c) : p a = true := by
  unfold condFilter at h
  rw [if_pos hc] at h
  exact List.of_mem_filter h

theorem condFilter_eq_self {c : Prop} [Decidable c] {p : α → Bool} {l : List α}
    (h : ∀ a ∈ l, p a = true) : condFilter c p l = l := by
  unfold condFilter
  split
  · exact List.filter_eq_self.2 h
  · rfl

theorem condFilter_length {c : Prop} [Decidable c] {p : α → Bool} {l : List α} :
    (condFilter c p l).length ≤ l.length := by
  unfold condFilter
  split
  · exact List.length_filter_le p l
  · exact le_rfl

theorem mapOpt_mem {f : α → Option β} :
    ∀ {l : List α} {out : List β}, mapOpt f l = some out →
      ∀ y ∈ out, ∃ x ∈ l, f x = some y := by
  intro l
  induction l with
  | nil =>
      intro out h y hy
      simp only [mapOpt, Option.some.injEq] at h
      subst h
      simp at hy
  | cons a t ih =>
      intro out h y hy
      simp only [mapOpt, bind, Option.bind_eq_some, Option.pure_def,
        Option.some.injEq] at h
      obtain ⟨b, hb, bs, hbs, rfl⟩ := h
      rcases List.mem_cons.1 hy with rfl | hy
      · exact ⟨a, List.mem_cons_self a t, hb⟩
      · obtain ⟨x, hx, hfx⟩ := ih hbs y hy
        exact ⟨x, List.mem_cons_of_mem a hx, hfx⟩

theorem cutLabels_mem {il : Bool} {edges : List ℚ} {labels : List α} {v : ℚ} {x : α}
    (h : cutLabels il edges labels v = some x) : x ∈ labels := by
  unfold cutLabels at h
  rw [Option.bind_eq_some] at h
  obtain ⟨i, _, hi⟩ := h
  obtain ⟨hlt, rfl⟩ := List.getElem?_eq_some.1 hi
  exact List.getElem_mem hlt

theorem find?_first {p : α → Bool} {r : α} :
    ∀ {pre : List α}, (∀ x ∈ pre, p x = false) → p r = true →
      ∀ post, (pre ++ r :: post).find? p = some r := by
  intro pre
  induction pre with
  | nil =>
      intro _ hr post
      simp [List.find?_cons, hr]
  | cons a t ih =>
      intro hpre hr post
      have ha : p a = false := hpre a (List.mem_cons_self a t)
      simp only [List.cons_append, List.find?_cons, ha]
      exact ih (fun x hx => hpre x (List.mem_cons_of_mem a hx)) hr post

theorem condFilter_eq_self_of {c : Prop} [Decidable c] {p : α → Bool} {l : List α}
    (h : c → ∀ a ∈ l, p a = true) : condFilter c p l = l := by
  unfold condFilter
  split
  · exact List.filter_eq_self.2 (h (by assumption))
  · rfl

theorem productFilter_mem {sel : List String} {l : List PRow} {r : PRow}
    (h : r ∈ productFilter sel l) : r ∈ l := by
  unfold productFilter at h
  split at h
  · exact h
  · exact List.mem_of_mem_filter h

theorem productFilter_pass {sel : List String} {l : List PRow} {r : PRow}
    (h : r ∈ productFilter sel l) (hne : sel ≠ []) :
    productMask sel r.purchased_products_names = true := by
  unfold productFilter at h
  rw [if_neg hne] at h
  have hp := List.of_mem_filter h
  exact hp

theorem productFilter_eq_self {sel : List String} {l : List PRow}
    (h : sel ≠ [] → ∀ r ∈ l, productMask sel r.purchased_products_names = true) :
    productFilter sel l = l := by
  unfold productFilter
  split
  · rfl
  · exact List.filter_eq_self.2 (h (by assumption))

theorem productFilter_length {sel : List String} {l : List PRow} :
    (productFilter sel l).length ≤ l.length := by
  unfold productFilter
  split
  · exact le_rfl
  · exact List.length_filter_le _ l

theorem similarityFilter_mem {b : Option (ℚ × ℚ)} {l : List PRow} {r : PRow}
    (h : r ∈ similarityFilter b l) : r ∈ l := by
  match b with
  | none => exact h
  | some (lo, hi) => exact List.mem_of_mem_filter h

theorem simPass_elim {lo hi : ℚ} {v : Option ℚ} (h : simPass lo hi v = true) :
    ∃ s, v = some s ∧ lo ≤ s * 100 ∧ s * 100 ≤ hi := by
  match v with
  | none => exact absurd h (by simp [simPass])
  | some s => exact ⟨s, rfl, of_decide_eq_true h⟩

theorem similarityFilter_pass {b : Option (ℚ × ℚ)} {l : List PRow} {r : PRow}
    (h : r ∈ similarityFilter b l) :
    ∀ lo hi, b = some (lo, hi) →
      ∃ s, r.Similarity_Score = some s ∧ lo ≤ s * 100 ∧ s * 100 ≤ hi := by
  intro lo hi hb
  subst hb
  have hp := List.of_mem_filter h
  exact simPass_elim hp

theorem similarityFilter_eq_self {b : Option (ℚ × ℚ)} {l : List PRow}
    (h : ∀ lo hi, b = some (lo, hi) → ∀ r ∈ l,
      ∃ s, r.Similarity_Score = some s ∧ lo ≤ s * 100 ∧ s * 100 ≤ hi) :
    similarityFilter b l = l := by
  match hb : b with
  | none => rfl
  | some (lo, hi) =>
      refine List.filter_eq_self.2 (fun r hr => ?_)
      obtain ⟨s, hs, hrange⟩ := h lo hi rfl r hr
      simp [simPass, hs]
      exact hrange

theorem similarityFilter_length {b : Option (ℚ × ℚ)} {l : List PRow} :
    (similarityFilter b l).length ≤ l.length := by
  match b with
  | none => exact le_rfl
  | some (lo, hi) => exact List.length_filter_le _ l

theorem spentFilter_mem {b : Option (ℚ × ℚ)} {l : List PRow} {r : PRow}
    (h : r ∈ spentFilter b l) : r ∈ l := by
  match b with
  | none => exact h
  | some (lo, hi) => exact List.mem_of_mem_filter h

theorem spentFilter_pass {b : Option (ℚ × ℚ)} {l : List PRow} {r : PRow}
    (h : r ∈ spentFilter b l) :
    ∀ lo hi, b = some (lo, hi) → lo ≤ r.total_spent ∧ r.total_spent ≤ hi := by
  intro lo hi hb
  subst hb
  have hp := List.of_mem_filter h
  exact of_decide_eq_true hp

theorem spentFilter_eq_self {b : Option (ℚ × ℚ)} {l : List PRow}
    (h : ∀ lo hi, b = some (lo, hi) → ∀ r ∈ l,
      lo ≤ r.total_spent ∧ r.total_spent ≤ hi) :
    spentFilter b l = l := by
  match hb : b with
  | none => rfl
  | some (lo, hi) =>
      exact List.filter_eq_self.2 (fun r hr => decide_eq_true (h lo hi rfl r hr))

theorem spentFilter_length {b : Option (ℚ × ℚ)} {l : List PRow} :
    (spentFilter b l).length ≤ l.length := by
  match b with
  | none => exact le_rfl
  | some (lo, hi) => exact List.length_filter_le _ l

/-- Everything that holds of a row surviving the prediction-page filter
chain: it comes from the base table and satisfies every active predicate. -/
theorem applyPredictionFilters_pass {rows : List PRow} {c : PCriteria} {r : PRow}
    (h : r ∈ applyPredictionFilters rows c) :
    r ∈ rows ∧
    (c.customer_id ≠ "All" → r.customer_id = c.customer_id) ∧
    (c.name ≠ "All" → r.name = c.name) ∧
    (c.gender ≠ "All" → r.gender = c.gender) ∧
    (c.region ≠ "All" → r.state = c.region) ∧
    (c.city ≠ "All" → r.city_name = c.city) ∧
    (c.products ≠ [] → productMask c.products r.purchased_products_names = true) ∧
    (∀ lo hi, c.similarity = some (lo, hi) →
      ∃ s, r.Similarity_Score = some s ∧ lo ≤ s * 100 ∧ s * 100 ≤ hi) ∧
    (∀ lo hi, c.spent = some (lo, hi) → lo ≤ r.total_spent ∧ r.total_spent ≤ hi) := by
  unfold applyPredictionFilters at h
  have hspent := spentFilter_pass h
  replace h := spentFilter_mem h
  have hsim := similarityFilter_pass h
  replace h := similarityFilter_mem h
  have hprod : c.products ≠ [] →
      productMask c.products r.purchased_products_names = true :=
    fun hne => productFilter_pass h hne
  replace h := productFilter_mem h
  have hcity : c.city ≠ "All" → r.city_name = c.city := by
    intro hc
    have hp := condFilter_pass h hc
    exact of_decide_eq_true hp
  replace h := condFilter_mem h
  have hregion : c.region ≠ "All" → r.state = c.region := by
    intro hc
    have hp := condFilter_pass h hc
    exact of_decide_eq_true hp
  replace h := condFilter_mem h
  have hgender : c.gender ≠ "All" → r.gender = c.gender := by
    intro hc
    have hp := condFilter_pass h hc
    exact of_decide_eq_true hp
  replace h := condFilter_mem h
  have hname : c.name ≠ "All" → r.name = c.name := by
    intro hc
    have hp := condFilter_pass h hc
    exact of_decide_eq_true hp
  replace h := condFilter_mem h
  have hcid : c.customer_id ≠ "All" → r.customer_id = c.customer_id := by
    intro hc
    have hp := condFilter_pass h hc
    exact of_decide_eq_true hp
  replace h := condFilter_mem h
  exact ⟨h, hcid, hname, hgender, hregion, hcity, hprod, hsim, hspent⟩

/-- Everything that holds of a row surviving the inline filter chain
(before the sort/top-N step). -/
theorem inlineFilter_pass {rows : List IRow} {c : ICriteria} {r : IRow}
    (h : r ∈ inlineFilter rows c) :
    r ∈ rows ∧
    (c.category ≠ "All" → r.category = c.category) ∧
    (c.product ≠ "All" → r.product = c.product) ∧
    (c.propensity.1 ≤ r.propensity_score ∧ r.propensity_score ≤ c.propensity.2) ∧
    (c.region ≠ "All" → r.region = c.region) ∧
    (c.price.1 ≤ r.price_inr ∧ r.price_inr ≤ c.price.2) ∧
    (c.gender ≠ "All" → r.gender = c.gender) ∧
    (c.spending ≠ "All" → r.spending_category = some c.spending) ∧
    r.Recency ≤ c.recency_max ∧
    c.frequency_min ≤ r.Frequency := by
  unfold inlineFilter at h
  have hfreq : c.frequency_min ≤ r.Frequency := by
    have hp := List.of_mem_filter h
    exact of_decide_eq_true hp
  replace h := List.mem_of_mem_filter h
  have hrec : r.Recency ≤ c.recency_max := by
    have hp := List.of_mem_filter h
    exact of_decide_eq_true hp
  replace h := List.mem_of_mem_filter h
  have hspend : c.spending ≠ "All" → r.spending_category = some c.spending := by
    intro hc
    have hp := condFilter_pass h hc
    exact of_decide_eq_true hp
  replace h := condFilter_mem h
  have hgender : c.gender ≠ "All" → r.gender = c.gender := by
    intro hc
    have hp := condFilter_pass h hc
    exact of_decide_eq_true hp
  replace h := condFilter_mem h
  have hprice : c.price.1 ≤ r.price_inr ∧ r.price_inr ≤ c.price.2 := by
    have hp := List.of_mem_filter h
    exact of_decide_eq_true hp
  replace h := List.mem_of_mem_filter h
  have hregion : c.region ≠ "All" → r.region = c.region := by
    intro hc
    have hp := condFilter_pass h hc
    exact of_decide_eq_true hp
  replace h := condFilter_mem h
  have hprop : c.propensity.1 ≤ r.propensity_score ∧
      r.propensity_score ≤ c.propensity.2 := by
    have hp := List.of_mem_filter h
    exact of_decide_eq_true hp
  replace h := List.mem_of_mem_filter h
  have hproduct : c.product ≠ "All" → r.product = c.product := by
    intro hc
    have hp := condFilter_pass h hc
    exact of_decide_eq_true hp
  replace h := condFilter_mem h
  have hcat : c.category ≠ "All" → r.category = c.category := by
    intro hc
    have hp := condFilter_pass h hc
    exact of_decide_eq_true hp
  replace h := condFilter_mem h
  exact ⟨h, hcat, hproduct, hprop, hregion, hprice, hgender, hspend, hrec, hfreq⟩

/-- A list already satisfying every active predicate is a fixed point of the
prediction-page filter chain. -/
theorem applyPredictionFilters_fix {L : List PRow} {c : PCriteria}
    (hp : ∀ r ∈ L,
      (c.customer_id ≠ "All" → r.customer_id = c.customer_id) ∧
      (c.name ≠ "All" → r.name = c.name) ∧
      (c.gender ≠ "All" → r.gender = c.gender) ∧
      (c.region ≠ "All" → r.state = c.region) ∧
      (c.city ≠ "All" → r.city_name = c.city) ∧
      (c.products ≠ [] → productMask c.products r.purchased_products_names = true) ∧
      (∀ lo hi, c.similarity = some (lo, hi) →
        ∃ s, r.Similarity_Score = some s ∧ lo ≤ s * 100 ∧ s * 100 ≤ hi) ∧
      (∀ lo hi, c.spent = some (lo, hi) →
        lo ≤ r.total_spent ∧ r.total_spent ≤ hi)) :
    applyPredictionFilters L c = L := by
  have h1 : condFilter (c.customer_id ≠ "All")
      (fun r => decide (r.customer_id = c.customer_id)) L = L :=
    condFilter_eq_self_of (fun hc a ha => decide_eq_true ((hp a ha).1 hc))
  have h2 : condFilter (c.name ≠ "All") (fun r => decide (r.name = c.name)) L = L :=
    condFilter_eq_self_of (fun hc a ha => decide_eq_true ((hp a ha).2.1 hc))
  have h3 : condFilter (c.gender ≠ "All") (fun r => decide (r.gender = c.gender)) L = L :=
    condFilter_eq_self_of (fun hc a ha => decide_eq_true ((hp a ha).2.2.1 hc))
  have h4 : condFilter (c.region ≠ "All") (fun r => decide (r.state = c.region)) L = L :=
    condFilter_eq_self_of (fun hc a ha => decide_eq_true ((hp a ha).2.2.2.1 hc))
  have h5 : condFilter (c.city ≠ "All") (fun r => decide (r.city_name = c.city)) L = L :=
    condFilter_eq_self_of (fun hc a ha => decide_eq_true ((hp a ha).2.2.2.2.1 hc))
  have h6 : productFilter c.products L = L :=
    productFilter_eq_self (fun hne a ha => (hp a ha).2.2.2.2.2.1 hne)
  have h7 : similarityFilter c.similarity L = L :=
    similarityFilter_eq_self (fun lo hi hb a ha => (hp a ha).2.2.2.2.2.2.1 lo hi hb)
  have h8 : spentFilter c.spent L = L :=
    spentFilter_eq_self (fun lo hi hb a ha => (hp a ha).2.2.2.2.2.2.2 lo hi hb)
  unfold applyPredictionFilters
  rw [h1, h2, h3, h4, h5, h6, h7, h8]

/-- A list already satisfying every active predicate is a fixed point of the
inline filter chain. -/
theorem inlineFilter_fix {L : List IRow} {c : ICriteria}
    (hp : ∀ r ∈ L,
      (c.category ≠ "All" → r.category = c.category) ∧
      (c.product ≠ "All" → r.product = c.product) ∧
      (c.propensity.1 ≤ r.propensity_score ∧ r.propensity_score ≤ c.propensity.2) ∧
      (c.region ≠ "All" → r.region = c.region) ∧
      (c.price.1 ≤ r.price_inr ∧ r.price_inr ≤ c.price.2) ∧
      (c.gender ≠ "All" → r.gender = c.gender) ∧
      (c.spending ≠ "All" → r.spending_category = some c.spending) ∧
      r.Recency ≤ c.recency_max ∧
      c.frequency_min ≤ r.Frequency) :
    inlineFilter L c = L := by
  have h1 : condFilter (c.category ≠ "All")
      (fun r => decide (r.category = c.category)) L = L :=
    condFilter_eq_self_of (fun hc a ha => decide_eq_true ((hp a ha).1 hc))
  have h2 : condFilter (c.product ≠ "All")
      (fun r => decide (r.product = c.product)) L = L :=
    condFilter_eq_self_of (fun hc a ha => decide_eq_true ((hp a ha).2.1 hc))
  have h3 : L.filter (fun r =>
      decide (c.propensity.1 ≤ r.propensity_score ∧
        r.propensity_score ≤ c.propensity.2)) = L :=
    List.filter_eq_self.2 (fun a ha => decide_eq_true ((hp a ha).2.2.1))
  have h4 : condFilter (c.region ≠ "All") (fun r => decide (r.region = c.region)) L = L :=
    condFilter_eq_self_of (fun hc a ha => decide_eq_true ((hp a ha).2.2.2.1 hc))
  have h5 : L.filter (fun r =>
      decide (c.price.1 ≤ r.price_inr ∧ r.price_inr ≤ c.price.2)) = L :=
    List.filter_eq_self.2 (fun a ha => decide_eq_true ((hp a ha).2.2.2.2.1))
  have h6 : condFilter (c.gender ≠ "All") (fun r => decide (r.gender = c.gender)) L = L :=
    condFilter_eq_self_of (fun hc a ha => decide_eq_true ((hp a ha).2.2.2.2.2.1 hc))
  have h7 : condFilter (c.spending ≠ "All")
      (fun r => decide (r.spending_category = some c.spending)) L = L :=
    condFilter_eq_self_of (fun hc a ha => decide_eq_true ((hp a ha).2.2.2.2.2.2.1 hc))
  have h8 : L.filter (fun r => decide (r.Recency ≤ c.recency_max)) = L :=
    List.filter_eq_self.2 (fun a ha => decide_eq_true ((hp a ha).2.2.2.2.2.2.2.1))
  have h9 : L.filter (fun r => decide (c.frequency_min ≤ r.Frequency)) = L :=
    List.filter_eq_self.2 (fun a ha => decide_eq_true ((hp a ha).2.2.2.2.2.2.2.2))
  unfold inlineFilter
  beta_reduce
  rw [h1, h2, h3, h4, h5, h6, h7, h8, h9]

theorem getD_of_all_eq {l : List ℚ} {cv : ℚ} (h : ∀ x ∈ l, x = cv) :
    ∀ {i : Nat}, i < l.length → ∀ d, l.getD i d = cv := by
  induction l with
  | nil => intro i hi; simp at hi
  | cons a t ih =>
      intro i hi d
      cases i with
      | zero => simpa using h a (List.mem_cons_self a t)
      | succ n =>
          simp only [List.getD_cons_succ]
          exact ih (fun x hx => h x (List.mem_cons_of_mem a hx))
            (by simpa using Nat.lt_of_succ_lt_succ hi) d

/-- On a non-empty constant list every quantile is that constant. -/
theorem quantile_of_const {l : List ℚ} {cv : ℚ} (hne : l ≠ [])
    (h : ∀ x ∈ l, x = cv) {p : ℚ} (hp0 : 0 ≤ p) (hp1 : p ≤ 1) :
    quantile l p = cv := by
  have hn1 : 1 ≤ l.length := List.length_pos.2 hne
  have hposle : p * ((l.length : ℚ) - 1) ≤ (l.length : ℚ) - 1 := by
    have h0 : (0 : ℚ) ≤ (l.length : ℚ) - 1 := by
      have : (1 : ℚ) ≤ (l.length : ℚ) := by exact_mod_cast hn1
      linarith
    nlinarith
  have hfl : Rat.floor (p * ((l.length : ℚ) - 1)) < (l.length : ℤ) := by
    by_contra hcon
    push_neg at hcon
    have hle : ((l.length : ℤ) : ℚ) ≤ p * ((l.length : ℚ) - 1) := Rat.le_floor.1 hcon
    push_cast at hle
    linarith
  have hi : (Rat.floor (p * ((l.length : ℚ) - 1))).toNat < l.length := by omega
  have hlo := getD_of_all_eq h hi 0
  unfold quantile interpAt
  rw [hlo]
  rcases Nat.lt_or_ge ((Rat.floor (p * ((l.length : ℚ) - 1))).toNat + 1) l.length
    with hlt | hge
  · rw [getD_of_all_eq h hlt]
    ring
  · rw [List.getD_eq_default _ _ hge]
    ring

theorem edges4_const {xs : List ℚ} {cv : ℚ} (hne : xs ≠ []) (h : ∀ x ∈ xs, x = cv) :
    qcutEdges4 xs = [cv, cv, cv, cv, cv] := by
  have hsne : sortBy (fun a b => decide (a ≤ b)) xs ≠ [] := by
    have hlen : (sortBy (fun a b => decide (a ≤ b)) xs).length = xs.length :=
      length_sortBy
    intro hnil
    rw [hnil, List.length_nil] at hlen
    exact hne (List.length_eq_zero.1 hlen.symm)
  have hsall : ∀ x ∈ sortBy (fun a b => decide (a ≤ b)) xs, x = cv :=
    fun x hx => h x (mem_sortBy.1 hx)
  unfold qcutEdges4 quantilesOf
  simp only [List.map_cons, List.map_nil]
  rw [quantile_of_const hsne hsall (by norm_num) (by norm_num),
    quantile_of_const hsne hsall (by norm_num) (by norm_num),
    quantile_of_const hsne hsall (by norm_num) (by norm_num),
    quantile_of_const hsne hsall (by norm_num) (by norm_num),
    quantile_of_const hsne hsall (by norm_num) (by norm_num)]

theorem edges3_const {xs : List ℚ} {cv : ℚ} (hne : xs ≠ []) (h : ∀ x ∈ xs, x = cv) :
    qcutEdges3 xs = [cv, cv, cv, cv] := by
  have hsne : sortBy (fun a b => decide (a ≤ b)) xs ≠ [] := by
    have hlen : (sortBy (fun a b => decide (a ≤ b)) xs).length = xs.length :=
      length_sortBy
    intro hnil
    rw [hnil, List.length_nil] at hlen
    exact hne (List.length_eq_zero.1 hlen.symm)
  have hsall : ∀ x ∈ sortBy (fun a b => decide (a ≤ b)) xs, x = cv :=
    fun x hx => h x (mem_sortBy.1 hx)
  unfold qcutEdges3 quantilesOf
  simp only [List.map_cons, List.map_nil]
  rw [quantile_of_const hsne hsall (by norm_num) (by norm_num),
    quantile_of_const hsne hsall (by norm_num) (by norm_num),
    quantile_of_const hsne hsall (by norm_num) (by norm_num),
    quantile_of_const hsne hsall (by norm_num) (by norm_num)]

theorem allDistinct_const5 {cv : ℚ} : allDistinct [cv, cv, cv, cv, cv] = false := by
  simp [allDistinct]

theorem foldl_max_zero {t : List ℚ} (h : ∀ y ∈ t, y = 0) : t.foldl max 0 = 0 := by
  induction t with
  | nil => rfl
  | cons a t ih =>
      have ha : a = 0 := h a (List.mem_cons_self a t)
      subst ha
      simp only [List.foldl_cons, max_self]
      exact ih (fun y hy => h y (List.mem_cons_of_mem 0 hy))

theorem seriesMax_zero {l : List ℚ} (hne : l ≠ []) (h : ∀ x ∈ l, x = 0) :
    seriesMax l = some 0 := by
  match l, hne with
  | x :: t, _ =>
      have hx : x = 0 := h x (List.mem_cons_self x t)
      subst hx
      simp only [seriesMax, Option.some.injEq]
      exact foldl_max_zero (fun y hy => h y (List.mem_cons_of_mem 0 hy))

theorem collapseDups_const4 {cv : ℚ} : collapseDups [cv, cv, cv, cv] = [cv] := by
  simp [collapseDups]

theorem scoreRFM_const_recency {pop : List RFMRow} {cv : ℚ} (hne : pop ≠ [])
    (h : ∀ r ∈ pop, r.Recency = cv) : scoreRFM pop = none := by
  have hmapne : pop.map (·.Recency) ≠ [] := by
    simpa [List.map_eq_nil_iff] using hne
  have hmapall : ∀ x ∈ pop.map (·.Recency), x = cv := by
    intro x hx
    obtain ⟨r, hr, rfl⟩ := List.mem_map.1 hx
    exact h r hr
  unfold scoreRFM
  rw [edges4_const hmapne hmapall, allDistinct_const5]
  simp

theorem spending_categories_const {spent : List ℚ} {cv : ℚ} (hne : spent ≠ [])
    (h : ∀ x ∈ spent, x = cv) : spending_categories spent = none := by
  unfold spending_categories
  rw [edges3_const hne h, collapseDups_const4]
  simp

theorem foldl_or_eq {f : α → Bool} :
    ∀ (l : List α) (b : Bool), l.foldl (fun acc x => acc || f x) b = (b || l.any f) := by
  intro l
  induction l with
  | nil => intro b; simp
  | cons a t ih =>
      intro b
      simp only [List.foldl_cons, List.any_cons, ih, Bool.or_assoc]

/-- OR semantics of the product mask on a present product list. -/
theorem productMask_iff {sel : List String} {s : String} :
    productMask sel (some s) = true ↔ ∃ p ∈ sel, containsCI s p = true := by
  unfold productMask
  rw [foldl_or_eq]
  simp [List.any_eq_true]

/-- A row with a `NaN` product list never passes the product mask. -/
theorem productMask_none {sel : List String} : productMask sel none = false := by
  unfold productMask
  rw [foldl_or_eq]
  simp

theorem scoreRow_elim {eR eF eM : List ℚ} {x : RFMRow × ℚ} {s : ScoredRFM}
    (h : scoreRow eR eF eM x = some s) :
    s.R_Score ∈ ([4, 3, 2, 1] : List ℤ) ∧
    s.F_Score ∈ ([1, 2, 3, 4] : List ℤ) ∧
    s.M_Score ∈ ([1, 2, 3, 4] : List ℤ) ∧
    s.RFM_Score = s.R_Score + s.F_Score + s.M_Score ∧
    s.Segment = segment_customer s.RFM_Score := by
  unfold scoreRow at h
  simp only [bind, Option.bind_eq_some, Option.pure_def, Option.some.injEq] at h
  obtain ⟨r, hr, f, hf, m, hm, hs⟩ := h
  subst hs
  exact ⟨cutLabels_mem hr, cutLabels_mem hf, cutLabels_mem hm, rfl, rfl⟩

/-- The threshold table of `segment_customer`, spelled out interval by
interval. -/
theorem segment_customer_spec (sc : ℤ) :
    (10 ≤ sc → segment_customer sc = "Champions") ∧
    (8 ≤ sc ∧ sc < 10 → segment_customer sc = "Loyal Customers") ∧
    (6 ≤ sc ∧ sc < 8 → segment_customer sc = "Potential Loyalists") ∧
    (5 ≤ sc ∧ sc < 6 → segment_customer sc = "At Risk") ∧
    (sc < 5 → segment_customer sc = "Lost") := by
  unfold segment_customer
  refine ⟨?_, ?_, ?_, ?_, ?_⟩ <;> intro h <;> split_ifs <;> first | rfl | omega

theorem classifyPersona_of_contained {resp p : String}
    (hp : p ∈ personaLabels) (hc : containsCI resp p = true) :
    classifyPersona resp ∈ personaLabels ∧
      containsCI resp (classifyPersona resp) = true := by
  unfold classifyPersona
  have hsome : (personaLabels.find? (fun q => containsCI resp q)).isSome := by
    rw [List.find?_isSome]
    exact ⟨p, hp, hc⟩
  obtain ⟨q, hq⟩ := Option.isSome_iff_exists.1 hsome
  rw [hq]
  exact ⟨List.mem_of_find?_eq_some hq, List.find?_some hq⟩

theorem classifyPersona_unmatched {resp : String}
    (h : ∀ p ∈ personaLabels, containsCI resp p = false) :
    classifyPersona resp = "Unclassified" := by
  unfold classifyPersona
  rw [List.find?_eq_none.2 (fun p hp => by simp [h p hp])]

theorem engagement_score_allzero {pop : List PredRow} (hne : pop ≠ [])
    (h : ∀ x ∈ pop, x.total_transactions = 0) (r : PredRow) :
    engagement_score pop r = none := by
  have hm : seriesMax (pop.map (·.total_transactions)) = some 0 := by
    refine seriesMax_zero (by simpa [List.map_eq_nil_iff] using hne) ?_
    intro x hx
    obtain ⟨a, ha, rfl⟩ := List.mem_map.1 hx
    exact h a ha
  unfold engagement_score
  rw [hm]
  simp

theorem inlineFilter_length {rows : List IRow} {c : ICriteria} :
    (inlineFilter rows c).length ≤ rows.length := by
  unfold inlineFilter
  apply le_trans (List.length_filter_le _ _)
  apply le_trans (List.length_filter_le _ _)
  apply le_trans condFilter_length
  apply le_trans condFilter_length
  apply le_trans (List.length_filter_le _ _)
  apply le_trans condFilter_length
  apply le_trans (List.length_filter_le _ _)
  apply le_trans condFilter_length
  exact condFilter_length

theorem applyPredictionFilters_length {rows : List PRow} {c : PCriteria} :
    (applyPredictionFilters rows c).length ≤ rows.length := by
  unfold applyPredictionFilters
  apply le_trans spentFilter_length
  apply le_trans similarityFilter_length
  apply le_trans productFilter_length
  apply le_trans condFilter_length
  apply le_trans condFilter_length
  apply le_trans condFilter_length
  apply le_trans condFilter_length
  exact condFilter_length

theorem display_inline_filters_mem {rows : List IRow} {c : ICriteria} {r : IRow}
    (h : r ∈ display_inline_filters rows c) : r ∈ inlineFilter rows c :=
  mem_sortBy.1 (List.mem_of_mem_take h)

theorem display_inline_filters_length {rows : List IRow} {c : ICriteria} :
    (display_inline_filters rows c).length ≤ rows.length := by
  unfold display_inline_filters
  rw [List.length_take, length_sortBy]
  exact le_trans (min_le_right _ _) inlineFilter_length

/-! ## Witness data -/

/-- A concrete merged prediction row used by witnesses. -/
def demoRow : PRow :=
  ⟨"C1", "Alice", "F", "West", "Mumbai", some "Soap, Towel", some (1/2), 100⟩

/-- A second concrete row. -/
def demoRow2 : PRow :=
  ⟨"C2", "Bob", "M", "East", "Kolkata", some "Brush", some (3/10), 200⟩

/-- A concrete two-row base table. -/
def demoRows : List PRow := [demoRow, demoRow2]

/-- Concrete criteria: region "West", product "soap", similarity in
[40 %, 60 %], spend in [0, 150]. -/
def demoCriteria : PCriteria :=
  ⟨"All", "All", "All", "West", "All", ["soap"], some (40, 60), some (0, 150)⟩

/-- A concrete RFM population with four distinct values per dimension. -/
def rfmWitnessPop : List RFMRow := [⟨1, 1, 1⟩, ⟨2, 2, 2⟩, ⟨3, 3, 3⟩, ⟨4, 4, 4⟩]

/-- `scoreRFM rfmWitnessPop`, spelled out. -/
def rfmWitnessOut : List ScoredRFM :=
  [⟨1, 1, 1, 4, 1, 1, 6, "Potential Loyalists"⟩,
   ⟨2, 2, 2, 3, 2, 2, 7, "Potential Loyalists"⟩,
   ⟨3, 3, 3, 2, 3, 3, 8, "Loyal Customers"⟩,
   ⟨4, 4, 4, 1, 4, 4, 9, "Loyal Customers"⟩]

/-! ## The claims -/

/-- C1: whenever the RFM scoring engine scores a population successfully,
every customer's `R_Score`, `F_Score`, `M_Score` lies in {1,2,3,4},
`RFM_Score` equals their sum and lies in [3,12], and the `Segment` is the
fixed threshold table applied in priority order to `RFM_Score`; in
particular `RFM_Score` 10 ↦ "Champions", 9 ↦ "Loyal Customers",
5 ↦ "At Risk" and 4 ↦ "Lost". -/
theorem c1_rfm_scores_and_segments (pop : List RFMRow) (out : List ScoredRFM)
    (h : scoreRFM pop = some out) :
    (∀ s ∈ out,
      s.R_Score ∈ ([1, 2, 3, 4] : List ℤ) ∧
      s.F_Score ∈ ([1, 2, 3, 4] : List ℤ) ∧
      s.M_Score ∈ ([1, 2, 3, 4] : List ℤ) ∧
      s.RFM_Score = s.R_Score + s.F_Score + s.M_Score ∧
      3 ≤ s.RFM_Score ∧ s.RFM_Score ≤ 12 ∧
      s.Segment = segment_customer s.RFM_Score ∧
      (10 ≤ s.RFM_Score → s.Segment = "Champions") ∧
      (8 ≤ s.RFM_Score ∧ s.RFM_Score < 10 → s.Segment = "Loyal Customers") ∧
      (6 ≤ s.RFM_Score ∧ s.RFM_Score < 8 → s.Segment = "Potential Loyalists") ∧
      (5 ≤ s.RFM_Score ∧ s.RFM_Score < 6 → s.Segment = "At Risk") ∧
      (s.RFM_Score < 5 → s.Segment = "Lost")) ∧
    segment_customer 10 = "Champions" ∧
    segment_customer 9 = "Loyal Customers" ∧
    segment_customer 5 = "At Risk" ∧
    segment_customer 4 = "Lost" := by
  constructor
  · intro s hs
    unfold scoreRFM at h
    split at h
    case isFalse => exact Option.noConfusion h
    case isTrue hc =>
      obtain ⟨x, hx, hfx⟩ := mapOpt_mem h s hs
      obtain ⟨hR, hF, hM, hsum, hseg⟩ := scoreRow_elim hfx
      have hR' : s.R_Score = 4 ∨ s.R_Score = 3 ∨ s.R_Score = 2 ∨ s.R_Score = 1 := by
        simpa using hR
      have hF' : s.F_Score = 1 ∨ s.F_Score = 2 ∨ s.F_Score = 3 ∨ s.F_Score = 4 := by
        simpa using hF
      have hM' : s.M_Score = 1 ∨ s.M_Score = 2 ∨ s.M_Score = 3 ∨ s.M_Score = 4 := by
        simpa using hM
      have hspec := segment_customer_spec s.RFM_Score
      refine ⟨by simp only [List.mem_cons]; omega, by simp only [List.mem_cons]; omega,
        by simp only [List.mem_cons]; omega, hsum, by omega, by omega, hseg,
        ?_, ?_, ?_, ?_, ?_⟩
      · intro h10
        rw [hseg]
        exact hspec.1 h10
      · intro h89
        rw [hseg]
        exact hspec.2.1 h89
      · intro h67
        rw [hseg]
        exact hspec.2.2.1 h67
      · intro h5
        rw [hseg]
        exact hspec.2.2.2.1 h5
      · intro h4
        rw [hseg]
        exact hspec.2.2.2.2 h4
  · exact ⟨rfl, rfl, rfl, rfl⟩

/-- C1 witness: the scoring succeeds on a concrete four-customer population
and the guaranteed properties hold of its first scored row. -/
theorem c1_rfm_scores_and_segments_witness :
    scoreRFM rfmWitnessPop = some rfmWitnessOut ∧
    (⟨1, 1, 1, 4, 1, 1, 6, "Potential Loyalists"⟩ : ScoredRFM).RFM_Score =
        (⟨1, 1, 1, 4, 1, 1, 6, "Potential Loyalists"⟩ : ScoredRFM).R_Score +
        (⟨1, 1, 1, 4, 1, 1, 6, "Potential Loyalists"⟩ : ScoredRFM).F_Score +
        (⟨1, 1, 1, 4, 1, 1, 6, "Potential Loyalists"⟩ : ScoredRFM).M_Score ∧
    (⟨1, 1, 1, 4, 1, 1, 6, "Potential Loyalists"⟩ : ScoredRFM).Segment =
      segment_customer 6 := by
  have h := c1_rfm_scores_and_segments rfmWitnessPop rfmWitnessOut (by decide)
  have hrow := h.1 ⟨1, 1, 1, 4, 1, 1, 6, "Potential Loyalists"⟩ (by decide)
  exact ⟨by decide, hrow.2.2.2.1, hrow.2.2.2.2.2.2.1⟩

/-- C4: the multi-valued product filter passes a row iff at least one
selected product name occurs case-insensitively in the row's delimited
product field (OR semantics); a missing field never passes; and on the
scenario selection ["Shampoo","Soap"], the rows "Shampoo, Conditioner" and
"Soap, Towel" pass while "Brush" is excluded. -/
theorem c4_product_or_semantics :
    (∀ (sel : List String) (s : String),
      productMask sel (some s) = true ↔ ∃ p ∈ sel, containsCI s p = true) ∧
    (∀ sel : List String, productMask sel none = false) ∧
    productMask ["Shampoo", "Soap"] (some "Shampoo, Conditioner") = true ∧
    productMask ["Shampoo", "Soap"] (some "Soap, Towel") = true ∧
    productMask ["Shampoo", "Soap"] (some "Brush") = false :=
  ⟨fun _ _ => productMask_iff, fun _ => productMask_none,
    by decide, by decide, by decide⟩

/-- C5 counterexample: on a population whose `total_transactions` are all 0
the engagement computation does produce the non-finite float `NaN`
(modelled `none`) instead of the claimed guarded value
`0.4·propensity + 0.3·similarity + 0`. -/
theorem c5_counterexample :
    engagement_score [⟨1/2, 1/2, 0, 100⟩, ⟨1/5, 3/10, 0, 50⟩] ⟨1/2, 1/2, 0, 100⟩
        = none ∧
    engagement_score [⟨1/2, 1/2, 0, 100⟩, ⟨1/5, 3/10, 0, 50⟩] ⟨1/2, 1/2, 0, 100⟩
        ≠ some (1/2 * (4/10) + 1/2 * (3/10)) := by
  constructor
  · decide
  · decide

/-- C5 (amended): for every prediction population whose `total_transactions`
are all 0, the unguarded division by the zero population maximum makes
`engagement_score` evaluate to `NaN` (no finite value) for every row —
the computation does not raise, but the third term is not 0. -/
theorem c5_engagement_allzero_nan (pop : List PredRow) (r : PredRow)
    (hne : pop ≠ []) (h : ∀ x ∈ pop, x.total_transactions = 0) :
    engagement_score pop r = none :=
  engagement_score_allzero hne h r

/-- C5 witness: the amended statement at a concrete one-row population. -/
theorem c5_engagement_allzero_nan_witness :
    engagement_score [⟨9/10, 8/10, 0, 10⟩] ⟨9/10, 8/10, 0, 10⟩ = none :=
  c5_engagement_allzero_nan [⟨9/10, 8/10, 0, 10⟩] ⟨9/10, 8/10, 0, 10⟩
    (by decide) (by decide)

/-- C6 counterexample: `pd.cut` with bins `[0, 0.3, 0.6, 1.0]` uses
right-closed intervals, so a propensity of exactly 0 falls outside every bin
(category `NaN`, not "Low") and a propensity of exactly 0.3 is categorised
"Low", not "Medium". -/
theorem c6_counterexample :
    propensity_category 0 = none ∧
    propensity_category (3/10) = some "Low" ∧
    propensity_category (3/10) ≠ some "Medium" := by
  refine ⟨by decide, by decide, by decide⟩

/-- C6 (amended): for propensity scores in [0,1] the derived category is
"Low" exactly on (0, 0.3], "Medium" exactly on (0.3, 0.6], "High" exactly on
(0.6, 1], and undefined (`NaN`) exactly at 0. -/
theorem propensity_category_low {p : ℚ} (h1 : 0 < p) (h2 : p ≤ 3/10) :
    propensity_category p = some "Low" := by
  unfold propensity_category cutLabels
  simp [binIndexAux, h1, h2]

theorem propensity_category_medium {p : ℚ} (h1 : 3/10 < p) (h2 : p ≤ 6/10) :
    propensity_category p = some "Medium" := by
  have ha : ¬ p ≤ 3/10 := not_le.2 h1
  unfold propensity_category cutLabels
  simp [binIndexAux, ha, h1, h2]

theorem propensity_category_high {p : ℚ} (h1 : 6/10 < p) (h2 : p ≤ 1) :
    propensity_category p = some "High" := by
  have ha : ¬ p ≤ 3/10 := by
    intro hc
    linarith
  have hb : ¬ p ≤ 6/10 := not_le.2 h1
  unfold propensity_category cutLabels
  simp [binIndexAux, ha, hb, h1, h2]

/-- C6 (amended): for propensity scores in [0,1] the derived category is
"Low" exactly on (0, 0.3], "Medium" exactly on (0.3, 0.6], "High" exactly on
(0.6, 1], and undefined (`NaN`) exactly at 0. -/
theorem c6_propensity_bins (p : ℚ) (h0 : 0 ≤ p) (h1 : p ≤ 1) :
    (propensity_category p = some "Low" ↔ 0 < p ∧ p ≤ 3/10) ∧
    (propensity_category p = some "Medium" ↔ 3/10 < p ∧ p ≤ 6/10) ∧
    (propensity_category p = some "High" ↔ 6/10 < p ∧ p ≤ 1) ∧
    (propensity_category p = none ↔ p = 0) := by
  have hcases : p = 0 ∨ (0 < p ∧ p ≤ 3/10) ∨ (3/10 < p ∧ p ≤ 6/10) ∨
      (6/10 < p ∧ p ≤ 1) := by
    rcases eq_or_lt_of_le h0 with he | hgt
    · exact Or.inl he.symm
    · rcases le_or_lt p (3/10) with hq | hq
      · exact Or.inr (Or.inl ⟨hgt, hq⟩)
      · rcases le_or_lt p (6/10) with hq2 | hq2
        · exact Or.inr (Or.inr (Or.inl ⟨hq, hq2⟩))
        · exact Or.inr (Or.inr (Or.inr ⟨hq2, h1⟩))
  rcases hcases with rfl | ⟨ha, hb⟩ | ⟨ha, hb⟩ | ⟨ha, hb⟩
  · refine ⟨?_, ?_, ?_, ?_⟩
    · exact iff_of_false (by decide) (by rintro ⟨hx, _⟩; exact lt_irrefl 0 hx)
    · exact iff_of_false (by decide) (by rintro ⟨hx, _⟩; norm_num at hx)
    · exact iff_of_false (by decide) (by rintro ⟨hx, _⟩; norm_num at hx)
    · exact iff_of_true (by decide) rfl
  · rw [propensity_category_low ha hb]
    refine ⟨iff_of_true rfl ⟨ha, hb⟩, ?_, ?_, ?_⟩
    · exact iff_of_false (by decide) (by rintro ⟨hx, _⟩; linarith)
    · exact iff_of_false (by decide) (by rintro ⟨hx, _⟩; linarith)
    · exact iff_of_false (by decide) (by rintro rfl; exact lt_irrefl 0 ha)
  · rw [propensity_category_medium ha hb]
    refine ⟨?_, iff_of_true rfl ⟨ha, hb⟩, ?_, ?_⟩
    · exact iff_of_false (by decide) (by rintro ⟨_, hy⟩; linarith)
    · exact iff_of_false (by decide) (by rintro ⟨hx, _⟩; linarith)
    · exact iff_of_false (by decide) (by rintro rfl; norm_num at ha)
  · rw [propensity_category_high ha hb]
    refine ⟨?_, ?_, iff_of_true rfl ⟨ha, hb⟩, ?_⟩
    · exact iff_of_false (by decide) (by rintro ⟨_, hy⟩; linarith)
    · exact iff_of_false (by decide) (by rintro ⟨_, hy⟩; linarith)
    · exact iff_of_false (by decide) (by rintro rfl; norm_num at ha)

/-- C6 witness: the amended bucket boundaries evaluated at 1/2. -/
theorem c6_propensity_bins_witness : propensity_category (1/2) = some "Medium" :=
  (c6_propensity_bins (1/2) (by norm_num) (by norm_num)).2.1.2
    ⟨by norm_num, by norm_num⟩

/-- C2: every row of a filtered result satisfies every active predicate —
on the prediction page the exact matches (customer id, name, gender,
region, city), the multi-valued product mask and the inclusive similarity
and spend ranges; on the insights page the exact matches and the inclusive
propensity and price ranges (plus the secondary recency/frequency bounds). -/
theorem c2_filter_conjunction :
    (∀ (rows : List PRow) (c : PCriteria) (r : PRow),
      r ∈ applyPredictionFilters rows c →
      (c.customer_id ≠ "All" → r.customer_id = c.customer_id) ∧
      (c.name ≠ "All" → r.name = c.name) ∧
      (c.gender ≠ "All" → r.gender = c.gender) ∧
      (c.region ≠ "All" → r.state = c.region) ∧
      (c.city ≠ "All" → r.city_name = c.city) ∧
      (c.products ≠ [] → productMask c.products r.purchased_products_names = true) ∧
      (∀ lo hi, c.similarity = some (lo, hi) →
        ∃ s, r.Similarity_Score = some s ∧ lo ≤ s * 100 ∧ s * 100 ≤ hi) ∧
      (∀ lo hi, c.spent = some (lo, hi) →
        lo ≤ r.total_spent ∧ r.total_spent ≤ hi)) ∧
    (∀ (rows : List IRow) (c : ICriteria) (r : IRow),
      r ∈ display_inline_filters rows c →
      (c.category ≠ "All" → r.category = c.category) ∧
      (c.product ≠ "All" → r.product = c.product) ∧
      (c.propensity.1 ≤ r.propensity_score ∧ r.propensity_score ≤ c.propensity.2) ∧
      (c.region ≠ "All" → r.region = c.region) ∧
      (c.price.1 ≤ r.price_inr ∧ r.price_inr ≤ c.price.2) ∧
      (c.gender ≠ "All" → r.gender = c.gender) ∧
      (c.spending ≠ "All" → r.spending_category = some c.spending) ∧
      r.Recency ≤ c.recency_max ∧
      c.frequency_min ≤ r.Frequency) :=
  ⟨fun _ _ _ h => (applyPredictionFilters_pass h).2,
   fun _ _ _ h => (inlineFilter_pass (display_inline_filters_mem h)).2⟩

/-- C2 witness: a surviving row of a concrete filtered table does satisfy
the active region and spend-range predicates. -/
theorem c2_filter_conjunction_witness :
    demoRow.state = "West" ∧ 0 ≤ demoRow.total_spent ∧ demoRow.total_spent ≤ 150 := by
  have h := c2_filter_conjunction.1 demoRows demoCriteria demoRow (by decide)
  exact ⟨h.2.2.2.1 (by decide), (h.2.2.2.2.2.2.2 0 150 rfl).1,
    (h.2.2.2.2.2.2.2 0 150 rfl).2⟩

/-- C3: setting a driver field (customer id or name) to a value whose first
matching record is `r` overwrites the other driver and gender/region/city
with `r`'s values, and setting a driver back to "All" resets all five
synchronised fields to "All". -/
theorem c3_autosync :
    (∀ (df : List PRow) (s : TempFilters) (sel : String)
        (pre post : List PRow) (r : PRow),
      sel ≠ s.customer_id → sel ≠ "All" →
      df = pre ++ r :: post → (∀ x ∈ pre, x.customer_id ≠ sel) →
      r.customer_id = sel →
      selectCustomerId df s sel =
        some ⟨sel, r.name, r.gender, r.state, r.city_name⟩) ∧
    (∀ (df : List PRow) (s : TempFilters), "All" ≠ s.customer_id →
      selectCustomerId df s "All" =
        some ⟨"All", "All", "All", "All", "All"⟩) ∧
    (∀ (df : List PRow) (s : TempFilters) (sel : String)
        (pre post : List PRow) (r : PRow),
      sel ≠ s.name → sel ≠ "All" →
      df = pre ++ r :: post → (∀ x ∈ pre, x.name ≠ sel) →
      r.name = sel →
      selectCustomerName df s sel =
        some ⟨r.customer_id, sel, r.gender, r.state, r.city_name⟩) ∧
    (∀ (df : List PRow) (s : TempFilters), "All" ≠ s.name →
      selectCustomerName df s "All" =
        some ⟨"All", "All", "All", "All", "All"⟩) := by
  refine ⟨?_, ?_, ?_, ?_⟩
  · intro df s sel pre post r hne hall hdf hpre hr
    have hf : df.find? (fun x => decide (x.customer_id = sel)) = some r := by
      subst hdf
      exact find?_first (fun x hx => decide_eq_false (hpre x hx))
        (decide_eq_true hr) post
    unfold selectCustomerId
    rw [if_neg hne, if_pos hall, hf]
  · intro df s h
    unfold selectCustomerId
    rw [if_neg (fun hc => h hc), if_neg (by simp)]
  · intro df s sel pre post r hne hall hdf hpre hr
    have hf : df.find? (fun x => decide (x.name = sel)) = some r := by
      subst hdf
      exact find?_first (fun x hx => decide_eq_false (hpre x hx))
        (decide_eq_true hr) post
    unfold selectCustomerName
    rw [if_neg hne, if_pos hall, hf]
  · intro df s h
    unfold selectCustomerName
    rw [if_neg (fun hc => h hc), if_neg (by simp)]

/-- C3 witness: selecting id "C2" on a concrete table pulls Bob's record
into all dependent fields, and resetting the id clears everything. -/
theorem c3_autosync_witness :
    selectCustomerId demoRows ⟨"All", "All", "All", "All", "All"⟩ "C2" =
      some ⟨"C2", "Bob", "M", "East", "Kolkata"⟩ ∧
    selectCustomerId demoRows ⟨"C2", "Bob", "M", "East", "Kolkata"⟩ "All" =
      some ⟨"All", "All", "All", "All", "All"⟩ := by
  constructor
  · exact c3_autosync.1 demoRows ⟨"All", "All", "All", "All", "All"⟩ "C2"
      [demoRow] [] demoRow2 (by decide) (by decide) rfl (by decide) (by decide)
  · exact c3_autosync.2.1 demoRows ⟨"C2", "Bob", "M", "East", "Kolkata"⟩
      (by decide)

/-- C7 counterexample: on a population with all-identical Recency values the
quartile computation raises (`pd.qcut` refuses duplicate bin edges; no
`duplicates='drop'` is passed), and on all-identical `total_spent` the
tertile computation raises as well (edges are dropped but the fixed 3-label
list then mismatches the collapsed bins) — the claim said neither fails. -/
theorem c7_counterexample :
    scoreRFM [⟨5, 1, 10⟩, ⟨5, 2, 20⟩, ⟨5, 3, 30⟩, ⟨5, 4, 40⟩] = none ∧
    spending_categories [7, 7, 7, 7] = none := by
  constructor
  · decide
  · decide

/-- C7 (amended): a degenerate distribution makes the computation fail
rather than collapse bins silently: any non-empty population with
all-identical Recency makes `scoreRFM` raise (`none`), and any non-empty
all-identical spend list makes the tertile `spending_category` assignment
raise (`none`). -/
theorem c7_degenerate_distribution_fails :
    (∀ (pop : List RFMRow) (cv : ℚ), pop ≠ [] →
      (∀ r ∈ pop, r.Recency = cv) → scoreRFM pop = none) ∧
    (∀ (xs : List ℚ) (cv : ℚ), xs ≠ [] →
      (∀ x ∈ xs, x = cv) → spending_categories xs = none) :=
  ⟨fun _ _ hne h => scoreRFM_const_recency hne h,
   fun _ _ hne h => spending_categories_const hne h⟩

/-- C7 witness: the amended statement at concrete degenerate inputs. -/
theorem c7_degenerate_distribution_fails_witness :
    scoreRFM [⟨9, 1, 5⟩, ⟨9, 2, 6⟩] = none ∧
    spending_categories [3, 3] = none :=
  ⟨c7_degenerate_distribution_fails.1 [⟨9, 1, 5⟩, ⟨9, 2, 6⟩] 9
      (by decide) (by decide),
   c7_degenerate_distribution_fails.2 [3, 3] 3 (by decide) (by decide)⟩

/-- C8: applying the same criteria a second time to a filtered result
changes nothing — for the prediction-page chain, for the inline chain, and
for the full inline pipeline including the propensity sort and top-N cap. -/
theorem c8_filters_idempotent :
    (∀ (rows : List PRow) (c : PCriteria),
      applyPredictionFilters (applyPredictionFilters rows c) c =
        applyPredictionFilters rows c) ∧
    (∀ (rows : List IRow) (c : ICriteria),
      inlineFilter (inlineFilter rows c) c = inlineFilter rows c) ∧
    (∀ (rows : List IRow) (c : ICriteria),
      display_inline_filters (display_inline_filters rows c) c =
        display_inline_filters rows c) := by
  have hle_trans : ∀ (a b d : IRow),
      decide (b.propensity_score ≤ a.propensity_score) = true →
      decide (d.propensity_score ≤ b.propensity_score) = true →
      decide (d.propensity_score ≤ a.propensity_score) = true := by
    intro a b d hab hbd
    exact decide_eq_true (le_trans (of_decide_eq_true hbd) (of_decide_eq_true hab))
  have hle_total : ∀ (a b : IRow),
      decide (b.propensity_score ≤ a.propensity_score) = true ∨
      decide (a.propensity_score ≤ b.propensity_score) = true := by
    intro a b
    rcases le_total b.propensity_score a.propensity_score with hc | hc
    · exact Or.inl (decide_eq_true hc)
    · exact Or.inr (decide_eq_true hc)
  refine ⟨?_, ?_, ?_⟩
  · intro rows c
    exact applyPredictionFilters_fix (fun r hr => (applyPredictionFilters_pass hr).2)
  · intro rows c
    exact inlineFilter_fix (fun r hr => (inlineFilter_pass hr).2)
  · intro rows c
    have hfix : inlineFilter (display_inline_filters rows c) c =
        display_inline_filters rows c :=
      inlineFilter_fix
        (fun r hr => (inlineFilter_pass (display_inline_filters_mem hr)).2)
    have hsorted : (display_inline_filters rows c).Pairwise
        (fun a b => decide (b.propensity_score ≤ a.propensity_score) = true) :=
      List.Pairwise.sublist (List.take_sublist _ _)
        (pairwise_sortBy hle_trans hle_total _)
    show (sortBy (fun a b => decide (b.propensity_score ≤ a.propensity_score))
        (inlineFilter (display_inline_filters rows c) c)).take c.top_n =
      display_inline_filters rows c
    rw [hfix, sortBy_eq_of_pairwise hsorted]
    unfold display_inline_filters
    rw [List.take_take, min_self]

/-- C9 counterexample: a transport failure of the external call is not
caught by `generate_persona` (there is no `try`/`except` around
`subprocess.run`), so it propagates instead of mapping to "Unclassified". -/
theorem c9_counterexample :
    generate_persona (Except.error ()) = Except.error () ∧
    generate_persona (Except.error ()) ≠ Except.ok "Unclassified" := by
  constructor
  · rfl
  · intro hc
    exact Except.noConfusion hc

/-- C9 (amended): on a successful call the classification returns the first
persona label contained case-insensitively in the response (a label from the
7-label vocabulary that does occur in the text), "Unclassified" when no
label occurs — e.g. free text containing "loyal customers section" yields
"Loyal Customers" — but a transport failure propagates unchanged instead of
being caught. -/
theorem c9_persona_classification :
    (∀ (resp p : String), p ∈ personaLabels → containsCI resp p = true →
      generate_persona (Except.ok resp) = Except.ok (classifyPersona resp) ∧
      classifyPersona resp ∈ personaLabels ∧
      containsCI resp (classifyPersona resp) = true) ∧
    (∀ resp : String, (∀ p ∈ personaLabels, containsCI resp p = false) →
      generate_persona (Except.ok resp) = Except.ok "Unclassified") ∧
    classifyPersona "please see the loyal customers section" = "Loyal Customers" ∧
    (∀ e : Unit, generate_persona (Except.error e) = Except.error e) := by
  refine ⟨?_, ?_, ?_, ?_⟩
  · intro resp p hp hc
    exact ⟨rfl, classifyPersona_of_contained hp hc⟩
  · intro resp h
    show Except.ok (classifyPersona resp) = Except.ok "Unclassified"
    rw [classifyPersona_unmatched h]
  · decide
  · intro e
    rfl

/-- C9 witness: the substring classification at a concrete response. -/
theorem c9_persona_classification_witness :
    generate_persona (Except.ok "clearly big spenders material") =
      Except.ok (classifyPersona "clearly big spenders material") ∧
    classifyPersona "clearly big spenders material" ∈ personaLabels ∧
    containsCI "clearly big spenders material"
      (classifyPersona "clearly big spenders material") = true :=
  c9_persona_classification.1 "clearly big spenders material" "Big Spenders"
    (by decide) (by decide)

/-- C10: filtering only removes rows — every row of a filtered result is an
unchanged row of the base table, and the result never has more rows than
the base table. -/
theorem c10_filtering_only_removes_rows :
    (∀ (rows : List PRow) (c : PCriteria) (r : PRow),
      r ∈ applyPredictionFilters rows c → r ∈ rows) ∧
    (∀ (rows : List PRow) (c : PCriteria),
      (applyPredictionFilters rows c).length ≤ rows.length) ∧
    (∀ (rows : List IRow) (c : ICriteria) (r : IRow),
      r ∈ display_inline_filters rows c → r ∈ rows) ∧
    (∀ (rows : List IRow) (c : ICriteria),
      (display_inline_filters rows c).length ≤ rows.length) :=
  ⟨fun _ _ _ h => (applyPredictionFilters_pass h).1,
   fun _ _ => applyPredictionFilters_length,
   fun _ _ _ h => (inlineFilter_pass (display_inline_filters_mem h)).1,
   fun _ _ => display_inline_filters_length⟩

/-- C10 witness: a row surviving a concrete filtered table is a row of the
base table. -/
theorem c10_filtering_only_removes_rows_witness : demoRow ∈ demoRows :=
  c10_filtering_only_removes_rows.1 demoRows demoCriteria demoRow (by decide)

end Cba
